import Mathlib

/-!
Verification of the RPGenie leveling/data mixins (`src/mixins.py`).

The numeric model: Python `int` fields (`level`, `experience`, `base_exp`,
`max_level`) are embedded as `ℤ`; the Python `float` field `exponent` and the
float arithmetic of `next_level` are idealised as real-number arithmetic
(`Real.rpow` for `**`, `Int.floor` for `math.floor`).

The `while` loop of `level_up` need not terminate (its body is empty when the
level cap has been reached while the threshold is still satisfied), so the
loop is embedded with an explicit fuel parameter: `none` means the loop was
still running when the fuel ran out.  A result of `some _` for every
sufficiently large fuel corresponds to actual termination of the Python loop,
and `none` for all fuels corresponds to divergence.
-/

namespace RPGenie

/-- The mutable state installed by `LevelMixin.__init__`: `level`,
`experience`, `exponent`, `base_exp`, `max_level` (in declaration order). -/
structure LevelState where
  level : ℤ
  experience : ℤ
  exponent : ℝ
  base_exp : ℤ
  max_level : Option ℤ

/-- The keyword arguments accepted by `LevelMixin.__init__`; a `none` field
means the keyword was absent so the documented default applies. -/
structure LevelKwargs where
  level : Option ℤ
  max_level : Option ℤ
  exp : Option ℤ
  exponent : Option ℝ
  base_exp : Option ℤ

/-- Constructor `LevelMixin.__init__`: defaults are level 1, exp 0, exponent 1.6,
base_exp 85, max_level None. -/
noncomputable def LevelMixin_init (k : LevelKwargs) : LevelState :=
  { level := k.level.getD 1
    experience := k.exp.getD 0
    exponent := k.exponent.getD 1.6
    base_exp := k.base_exp.getD 85
    max_level := k.max_level }

/-- The `next_level` property:
`math.floor(self.base_exp * (self.level**self.exponent))`. -/
noncomputable def next_level (s : LevelState) : ℤ :=
  ⌊(s.base_exp : ℝ) * (s.level : ℝ) ^ s.exponent⌋

/-- The guard `self.max_level is None or self.level < self.max_level`, used
both inside the loop of `level_up` and in its final reporting test. -/
def belowCap (s : LevelState) : Bool :=
  match s.max_level with
  | none => true
  | some m => decide (s.level < m)

/-- The `while` loop of `level_up`, fuel-indexed.  The loop variable
`print_exp` is modelled as `Option Bool`: `none` is Python `None`
(never print), `some true` is `True` (always print), `some false` is
`False` (print only if a level was gained).  Inside the loop, the source sets
`print_exp = True` after an increment unless it is `None`. -/
noncomputable def levelUpLoop : Nat → LevelState → Option Bool →
    Option (LevelState × Option Bool)
  | 0, _, _ => none
  | fuel + 1, s, print_exp =>
    if next_level s ≤ s.experience then
      if belowCap s then
        levelUpLoop fuel { s with level := s.level + 1 } (print_exp.map fun _ => true)
      else
        levelUpLoop fuel s print_exp
    else
      some (s, print_exp)

/-- Method `level_up`: runs the loop, then
`if print_exp and (self.max_level is None or self.level < self.max_level)`
returns the message carrying `int(self.next_level - self.experience)`
(modelled by the integer it carries), else returns `None` (modelled by
message `none`). -/
noncomputable def level_up (fuel : Nat) (s : LevelState) (print_exp : Option Bool) :
    Option (LevelState × Option ℤ) :=
  (levelUpLoop fuel s print_exp).map fun r =>
    (r.1, if r.2 = some true ∧ belowCap r.1 = true
          then some (next_level r.1 - r.1.experience)
          else none)

/-- Method `give_exp`: `self.experience += amount`, then if `check_level_up` run
`self.level_up(print_exp)`.  The source discards the value returned by
`level_up` (the statement is bare `self.level_up(print_exp)`), so `give_exp`
itself always returns Python `None`; the model returns the updated state
(`none` meaning the embedded loop ran out of fuel). -/
noncomputable def give_exp (fuel : Nat) (s : LevelState) (amount : ℤ)
    (check_level_up : Bool) (print_exp : Option Bool) : Option LevelState :=
  let s1 : LevelState := { s with experience := s.experience + amount }
  if check_level_up then (level_up fuel s1 print_exp).map Prod.fst else some s1

/-- One `give_exp` call in a call sequence: its arguments. -/
structure ExpCall where
  amount : ℤ
  check_level_up : Bool
  print_exp : Option Bool

/-- Runs a sequence of `give_exp` calls, propagating fuel exhaustion. -/
noncomputable def runCalls (fuel : Nat) : List ExpCall → LevelState → Option LevelState
  | [], s => some s
  | c :: cs, s =>
    match give_exp fuel s c.amount c.check_level_up c.print_exp with
    | none => none
    | some s1 => runCalls fuel cs s1

/-- A single read of the `next_level` property, modelled as returning the
value together with the (unchanged) state, so that purity is expressible. -/
noncomputable def nextLevelCall (s : LevelState) : ℤ × LevelState :=
  (next_level s, s)

/-- The spec's threshold formula, written from the spec's words
(`floor(base_exp * level^exponent)`) for comparison with `next_level`. -/
noncomputable def spec_threshold (s : LevelState) : ℤ :=
  ⌊(s.base_exp : ℝ) * (s.level : ℝ) ^ s.exponent⌋

/-- The error outcomes of `DataFileMixin._get_by_ID`:
`NotImplementedError` for an unsupported file format, `KeyError` for a
missing category or ID key. -/
inductive LoadError where
  | unsupportedFormat (fmt : String)
  | keyNotFound
deriving Repr, DecidableEq

/-- Method `DataFileMixin._get_by_ID`: dispatches on `file_format` (`json` and
`toml` both parse the whole file into a table, any other format raises
`NotImplementedError`), then evaluates `data[obj_type][str(ID)]`, raising
`KeyError` when either key is absent.  The parsed file is taken as an
association list from category names to tables from stringified IDs to
records; parsing itself (the `json.load` / `toml.load` call on the file
handle) is abstracted into that table. -/
def getByID {Rec : Type} (data : List (String × List (String × Rec)))
    (ID : ℤ) (obj_type : String) (file_format : String) : Except LoadError Rec :=
  if file_format = "json" ∨ file_format = "toml" then
    match List.lookup obj_type data with
    | none => .error .keyNotFound
    | some table =>
      match List.lookup (toString ID) table with
      | none => .error .keyNotFound
      | some r => .ok r
  else
    .error (.unsupportedFormat file_format)

/-- Fundamental facts about a terminating run of the `level_up` loop: the
level never decreases, the configuration fields and the experience are
untouched, and on exit the threshold strictly exceeds the experience. -/
theorem levelUpLoop_spec : ∀ (fuel : Nat) (s : LevelState) (flag : Option Bool)
    (s' : LevelState) (flag' : Option Bool),
    levelUpLoop fuel s flag = some (s', flag') →
    s.level ≤ s'.level ∧ s'.experience = s.experience ∧
    s'.exponent = s.exponent ∧ s'.base_exp = s.base_exp ∧
    s'.max_level = s.max_level ∧ s'.experience < next_level s' := by
  intro fuel
  induction fuel with
  | zero => intro s flag s' flag' h; simp [levelUpLoop] at h
  | succ fuel ih =>
    intro s flag s' flag' h
    simp only [levelUpLoop] at h
    by_cases hcond : next_level s ≤ s.experience
    · rw [if_pos hcond] at h
      by_cases hcap : belowCap s = true
      · rw [if_pos hcap] at h
        have := ih _ _ _ _ h
        refine ⟨?_, this.2.1, this.2.2.1, this.2.2.2.1, this.2.2.2.2.1, this.2.2.2.2.2⟩
        have h1 : s.level + 1 ≤ s'.level := this.1
        omega
      · rw [if_neg hcap] at h
        exact ih _ _ _ _ h
    · rw [if_neg hcond] at h
      simp only [Option.some.injEq, Prod.mk.injEq] at h
      obtain ⟨rfl, rfl⟩ := h
      exact ⟨le_refl _, rfl, rfl, rfl, rfl, not_le.mp hcond⟩
/-- A terminating run of the `level_up` loop never pushes the level past a
set cap it started at or below: the increment is guarded by
`self.level < self.max_level`. -/
theorem levelUpLoop_cap : ∀ (fuel : Nat) (s : LevelState) (flag : Option Bool)
    (s' : LevelState) (flag' : Option Bool) (m : ℤ),
    levelUpLoop fuel s flag = some (s', flag') →
    s.max_level = some m → s.level ≤ m → s'.level ≤ m := by
  intro fuel
  induction fuel with
  | zero => intro s flag s' flag' m h; simp [levelUpLoop] at h
  | succ fuel ih =>
    intro s flag s' flag' m h hm hle
    simp only [levelUpLoop] at h
    by_cases hcond : next_level s ≤ s.experience
    · rw [if_pos hcond] at h
      by_cases hcap : belowCap s = true
      · rw [if_pos hcap] at h
        have hlt : s.level < m := by
          unfold belowCap at hcap
          rw [hm] at hcap
          simpa using hcap
        exact ih _ _ _ _ m h hm (show s.level + 1 ≤ m by omega)
      · rw [if_neg hcap] at h
        exact ih _ _ _ _ m h hm hle
    · rw [if_neg hcond] at h
      simp only [Option.some.injEq, Prod.mk.injEq] at h
      obtain ⟨rfl, rfl⟩ := h
      exact hle

/-- How the loop variable `print_exp` evolves: `None` stays `None`, `True`
stays `True`, and `False` ends as `True` exactly when at least one level
increment happened during the call. -/
theorem levelUpLoop_flag : ∀ (fuel : Nat) (s : LevelState) (flag : Option Bool)
    (s' : LevelState) (flag' : Option Bool),
    levelUpLoop fuel s flag = some (s', flag') →
    (flag = none → flag' = none) ∧
    (flag = some true → flag' = some true) ∧
    (flag = some false → (flag' = some true ↔ s.level < s'.level)) := by
  intro fuel
  induction fuel with
  | zero => intro s flag s' flag' h; simp [levelUpLoop] at h
  | succ fuel ih =>
    intro s flag s' flag' h
    simp only [levelUpLoop] at h
    by_cases hcond : next_level s ≤ s.experience
    · rw [if_pos hcond] at h
      by_cases hcap : belowCap s = true
      · rw [if_pos hcap] at h
        have hmono := levelUpLoop_spec _ _ _ _ _ h
        have hih := ih _ _ _ _ h
        refine ⟨?_, ?_, ?_⟩
        · intro hn; subst hn; exact hih.1 rfl
        · intro hn; subst hn; exact hih.2.1 rfl
        · intro hn; subst hn
          have hflag' : flag' = some true := hih.2.1 rfl
          have : s.level < s'.level := by
            have h1 : s.level + 1 ≤ s'.level := hmono.1
            omega
          simp [hflag', this]
      · rw [if_neg hcap] at h
        exact ih _ _ _ _ h
    · rw [if_neg hcond] at h
      simp only [Option.some.injEq, Prod.mk.injEq] at h
      obtain ⟨rfl, rfl⟩ := h
      refine ⟨fun hn => hn, fun hn => hn, fun hn => ?_⟩
      subst hn
      simp

/-- When the cap has been reached while the threshold is still met, the loop
body does nothing, so the loop never exits regardless of fuel: the embedded
run returns `none` for every fuel value. -/
theorem levelUpLoop_stuck : ∀ (fuel : Nat) (s : LevelState) (flag : Option Bool)
    (m : ℤ), s.max_level = some m → ¬(s.level < m) →
    next_level s ≤ s.experience →
    levelUpLoop fuel s flag = none := by
  intro fuel
  induction fuel with
  | zero => intro s flag m _ _ _; rfl
  | succ fuel ih =>
    intro s flag m hm hcap hcond
    have hbc : belowCap s = false := by
      unfold belowCap
      rw [hm]
      simpa using hcap
    simp only [levelUpLoop]
    rw [if_pos hcond, if_neg (by simp [hbc])]
    exact ih s flag m hm hcap hcond
/-- Evaluation helper: with exponent 1 the threshold is `base_exp * level`. -/
theorem next_level_exponent_one (l x b : ℤ) (m : Option ℤ) :
    next_level ⟨l, x, 1, b, m⟩ = b * l := by
  show ⌊(b : ℝ) * (l : ℝ) ^ (1 : ℝ)⌋ = b * l
  rw [Real.rpow_one, ← Int.cast_mul, Int.floor_intCast]

/-- Evaluation helper: at level 1 the threshold is `base_exp` for any
exponent, since `1 ** e == 1`. -/
theorem next_level_level_one (x b : ℤ) (e : ℝ) (m : Option ℤ) :
    next_level ⟨1, x, e, b, m⟩ = b := by
  show ⌊(b : ℝ) * ((1 : ℤ) : ℝ) ^ e⌋ = b
  rw [Int.cast_one, Real.one_rpow, mul_one, Int.floor_intCast]

/-- A terminating `give_exp` call never lowers the level and never touches
the configuration fields `exponent`, `base_exp`, `max_level`. -/
theorem give_exp_spec (fuel : Nat) (s : LevelState) (amount : ℤ) (chk : Bool)
    (mode : Option Bool) (s' : LevelState)
    (h : give_exp fuel s amount chk mode = some s') :
    s.level ≤ s'.level ∧ s'.exponent = s.exponent ∧ s'.base_exp = s.base_exp ∧
    s'.max_level = s.max_level := by
  unfold give_exp at h
  cases chk with
  | false =>
    rw [if_neg Bool.false_ne_true] at h
    have hs' : { s with experience := s.experience + amount } = s' := Option.some.inj h
    subst hs'
    exact ⟨le_refl _, rfl, rfl, rfl⟩
  | true =>
    rw [if_pos rfl] at h
    unfold level_up at h
    rw [Option.map_map] at h
    rcases Option.map_eq_some'.mp h with ⟨⟨s1, flag1⟩, hloop, hs1⟩
    have hspec := levelUpLoop_spec _ _ _ _ _ hloop
    have hs' : s' = s1 := hs1.symm
    subst hs'
    exact ⟨hspec.1, hspec.2.2.1, hspec.2.2.2.1, hspec.2.2.2.2.1⟩

/-- A terminating `give_exp` call keeps the level at or below a set cap it
started at or below. -/
theorem give_exp_cap (fuel : Nat) (s : LevelState) (amount : ℤ) (chk : Bool)
    (mode : Option Bool) (s' : LevelState) (m : ℤ)
    (h : give_exp fuel s amount chk mode = some s')
    (hm : s.max_level = some m) (hle : s.level ≤ m) : s'.level ≤ m := by
  unfold give_exp at h
  cases chk with
  | false =>
    rw [if_neg Bool.false_ne_true] at h
    have hs' : { s with experience := s.experience + amount } = s' := Option.some.inj h
    subst hs'
    exact hle
  | true =>
    rw [if_pos rfl] at h
    unfold level_up at h
    rw [Option.map_map] at h
    rcases Option.map_eq_some'.mp h with ⟨⟨s1, flag1⟩, hloop, hs1⟩
    have hs' : s' = s1 := hs1.symm
    subst hs'
    exact levelUpLoop_cap _ _ _ _ _ m hloop hm hle

/-- Over a whole sequence of terminating `give_exp` calls, the level is
non-decreasing. -/
theorem runCalls_level_mono : ∀ (cs : List ExpCall) (fuel : Nat)
    (s s' : LevelState), runCalls fuel cs s = some s' → s.level ≤ s'.level := by
  intro cs
  induction cs with
  | nil =>
    intro fuel s s' h
    simp only [runCalls, Option.some.injEq] at h
    subst h
    exact le_refl _
  | cons c cs ih =>
    intro fuel s s' h
    simp only [runCalls] at h
    cases hg : give_exp fuel s c.amount c.check_level_up c.print_exp with
    | none => rw [hg] at h; exact absurd h (by simp)
    | some s1 =>
      rw [hg] at h
      have h1 := give_exp_spec _ _ _ _ _ _ hg
      have h2 := ih _ _ _ h
      omega

/-- Over a whole sequence of terminating `give_exp` calls, a set cap that
holds initially still holds at the end. -/
theorem runCalls_cap : ∀ (cs : List ExpCall) (fuel : Nat)
    (s s' : LevelState) (m : ℤ), runCalls fuel cs s = some s' →
    s.max_level = some m → s.level ≤ m → s'.level ≤ m := by
  intro cs
  induction cs with
  | nil =>
    intro fuel s s' m h hm hle
    simp only [runCalls, Option.some.injEq] at h
    subst h
    exact hle
  | cons c cs ih =>
    intro fuel s s' m h hm hle
    simp only [runCalls] at h
    cases hg : give_exp fuel s c.amount c.check_level_up c.print_exp with
    | none => rw [hg] at h; exact absurd h (by simp)
    | some s1 =>
      rw [hg] at h
      have h1 := give_exp_spec _ _ _ _ _ _ hg
      have h2 := give_exp_cap _ _ _ _ _ _ m hg hm hle
      exact ih _ _ _ m h (h1.2.2.2.trans hm) h2
/-- Divergence helper: `level_up` diverges (returns `none` at every fuel) from a state that is
at or above a set cap while the threshold is met. -/
theorem level_up_stuck (fuel : Nat) (s : LevelState) (mode : Option Bool)
    (m : ℤ) (hm : s.max_level = some m) (hcap : ¬(s.level < m))
    (hcond : next_level s ≤ s.experience) : level_up fuel s mode = none := by
  unfold level_up
  rw [levelUpLoop_stuck fuel s mode m hm hcap hcond]
  rfl

/-- Divergence helper: `give_exp` with level-up checking diverges when the post-addition state
is at or above a set cap while the threshold is met. -/
theorem give_exp_stuck (fuel : Nat) (s : LevelState) (amount : ℤ)
    (mode : Option Bool) (m : ℤ) (hm : s.max_level = some m)
    (hcap : ¬(s.level < m))
    (hcond : next_level { s with experience := s.experience + amount } ≤
      s.experience + amount) :
    give_exp fuel s amount true mode = none := by
  unfold give_exp
  rw [if_pos rfl]
  rw [level_up_stuck fuel { s with experience := s.experience + amount } mode m
    hm hcap hcond]
  rfl

/-- Real-analysis kernel for threshold monotonicity: for a base `a ≥ 1` and
an exponent `e ≥ 1`, stepping the base by one raises `a ^ e` by at least
one. -/
theorem rpow_succ_gap (a e : ℝ) (ha : 1 ≤ a) (he : 1 ≤ e) :
    a ^ e + 1 ≤ (a + 1) ^ e := by
  have ha0 : (0 : ℝ) < a := lt_of_lt_of_le one_pos ha
  have hfrac0 : (0 : ℝ) < 1 / a := by positivity
  have hfrac : (1 : ℝ) ≤ 1 + 1 / a := by linarith
  have key : a + 1 = a * (1 + 1 / a) := by field_simp
  have hmul : (a + 1) ^ e = a ^ e * (1 + 1 / a) ^ e := by
    rw [key, Real.mul_rpow (le_of_lt ha0) (by linarith)]
  have h1 : (1 + 1 / a) ≤ (1 + 1 / a) ^ e := by
    calc 1 + 1 / a = (1 + 1 / a) ^ (1 : ℝ) := (Real.rpow_one _).symm
    _ ≤ (1 + 1 / a) ^ e := Real.rpow_le_rpow_of_exponent_le hfrac he
  have h2 : a ≤ a ^ e := by
    calc a = a ^ (1 : ℝ) := (Real.rpow_one _).symm
    _ ≤ a ^ e := Real.rpow_le_rpow_of_exponent_le ha he
  have hae0 : (0 : ℝ) < a ^ e := lt_of_lt_of_le ha0 h2
  have h5 : a ^ e * (1 + 1 / a) ≤ (a + 1) ^ e := by
    rw [hmul]
    exact mul_le_mul_of_nonneg_left h1 (le_of_lt hae0)
  have h4 : (1 : ℝ) ≤ a ^ e * (1 / a) := by
    rw [mul_one_div]
    exact (one_le_div ha0).mpr h2
  have h6 : a ^ e * (1 + 1 / a) = a ^ e + a ^ e * (1 / a) := by ring
  linarith
/-- Evaluation helper: the loop exits immediately when the threshold is not
yet met. -/
theorem levelUpLoop_exit (fuel : Nat) (s : LevelState) (flag : Option Bool)
    (h : s.experience < next_level s) :
    levelUpLoop (fuel + 1) s flag = some (s, flag) := by
  simp only [levelUpLoop]
  rw [if_neg (not_le.mpr h)]

/-- Evaluation helper: `level_up` on a state below its threshold returns at
once, reporting according to the flag and the cap guard. -/
theorem level_up_exit (fuel : Nat) (s : LevelState) (flag : Option Bool)
    (h : s.experience < next_level s) :
    level_up (fuel + 1) s flag =
      some (s, if flag = some true ∧ belowCap s = true
               then some (next_level s - s.experience) else none) := by
  unfold level_up
  rw [levelUpLoop_exit fuel s flag h]
  rfl

/-- Claim C1: the claim asserts that the `level_up` evaluation loop
terminates for every state, stopping when a set `max_level` has been
reached.  The code refutes it: on the state with level 1, experience 85,
exponent 1.6, base_exp 85, max_level 1 — at its cap with the threshold
(`floor(85 * 1 ** 1.6) = 85`) already met — the loop guard holds but the
body does nothing (there is no `break`), so the state never changes and
`level_up`, and `give_exp` with checking enabled, never return: the embedded
run is `none` at every fuel. -/
theorem C1_level_up_diverges_at_cap (fuel : Nat) (mode : Option Bool) :
    levelUpLoop fuel ⟨1, 85, 1.6, 85, some 1⟩ mode = none ∧
    level_up fuel ⟨1, 85, 1.6, 85, some 1⟩ mode = none ∧
    give_exp fuel ⟨1, 85, 1.6, 85, some 1⟩ 0 true mode = none := by
  have hnl : next_level ⟨1, 85, 1.6, 85, some 1⟩ = 85 :=
    next_level_level_one 85 85 1.6 (some 1)
  refine ⟨?_, ?_, ?_⟩
  · exact levelUpLoop_stuck fuel _ mode 1 rfl
      (show ¬((1:ℤ) < 1) by omega) (by rw [hnl])
  · exact level_up_stuck fuel _ mode 1 rfl
      (show ¬((1:ℤ) < 1) by omega) (by rw [hnl])
  · refine give_exp_stuck fuel _ 0 mode 1 rfl
      (show ¬((1:ℤ) < 1) by omega) ?_
    show next_level ⟨1, (85:ℤ) + 0, 1.6, 85, some 1⟩ ≤ 85 + 0
    rw [next_level_level_one]
    omega

/-- Claim C2: the claim asserts that on `level=1, max_level=1,
experience=1000`, `give_exp(0, check_level_up=True)` returns with level 1
and no message.  The code refutes it: after adding 0, the threshold
`floor(85 * 1 ** 1.6) = 85` is at most 1000 while the cap forbids the
increment, so the loop body never changes the state and the call never
returns (embedded run `none` at every fuel). -/
theorem C2_scenario3_diverges (fuel : Nat) :
    give_exp fuel (LevelMixin_init ⟨some 1, some 1, some 1000, none, none⟩)
      0 true (some false) = none := by
  have hinit : LevelMixin_init ⟨some 1, some 1, some 1000, none, none⟩ =
      ⟨1, 1000, 1.6, 85, some 1⟩ := rfl
  rw [hinit]
  refine give_exp_stuck fuel _ 0 (some false) 1 rfl
    (show ¬((1:ℤ) < 1) by omega) ?_
  show next_level ⟨1, (1000:ℤ) + 0, 1.6, 85, some 1⟩ ≤ 1000 + 0
  rw [next_level_level_one]
  omega

/-- Claim C3, counterexample to the literal statement: the constructor does
not clamp the initial level, so a state constructed with `level=5,
max_level=3` already violates `level ≤ max_level`, and still does after a
`give_exp` call. -/
theorem C3_counterexample :
    (runCalls 1 [⟨0, false, none⟩]
        (LevelMixin_init ⟨some 5, some 3, none, none, none⟩)).map
      (fun s => decide (s.level ≤ 3)) = some false := rfl

/-- Claim C3, amended: for every state constructed with `max_level = M` set
and an initial level at most `M`, after any terminating sequence of
`give_exp` calls (arbitrary amounts and flags), the level is at most `M`. -/
theorem C3_cap_respected (k : LevelKwargs) (M : ℤ) (fuel : Nat)
    (cs : List ExpCall) (s' : LevelState)
    (hM : k.max_level = some M) (h0 : k.level.getD 1 ≤ M)
    (h : runCalls fuel cs (LevelMixin_init k) = some s') :
    s'.level ≤ M := by
  refine runCalls_cap cs fuel _ s' M h ?_ ?_
  · show k.max_level = some M
    exact hM
  · show k.level.getD 1 ≤ M
    exact h0

/-- Witness for C3: a concrete capped construction and one call. -/
theorem C3_cap_respected_witness :
    (LevelState.mk 1 (0 + 0) 1.6 85 (some 3)).level ≤ 3 :=
  C3_cap_respected ⟨none, some 3, none, none, none⟩ 3 1 [⟨0, false, none⟩]
    (LevelState.mk 1 (0 + 0) 1.6 85 (some 3)) rfl (by decide) rfl

/-- Claim C5: across any terminating sequence of `give_exp` calls, with
arbitrary (also negative) amounts, the level never decreases: the loop only
ever increments it and nothing else writes it. -/
theorem C5_no_level_regression (fuel : Nat) (cs : List ExpCall)
    (s s' : LevelState) (h : runCalls fuel cs s = some s') :
    s.level ≤ s'.level :=
  runCalls_level_mono cs fuel s s' h

/-- Witness for C5: a negative grant lowers experience, not the level. -/
theorem C5_no_level_regression_witness :
    (LevelState.mk 1 0 1.6 85 none).level ≤
      (LevelState.mk 1 (0 + -5) 1.6 85 none).level :=
  C5_no_level_regression 1 [⟨-5, false, none⟩] ⟨1, 0, 1.6, 85, none⟩
    ⟨1, 0 + -5, 1.6, 85, none⟩ rfl

/-- Claim C8: `give_exp` with `check_level_up=False` adds exactly `amount`
to the experience, leaves every other field unchanged, and performs no
level-up evaluation (the Python return value is `None`; in the model the
call is total and returns the updated state). -/
theorem C8_give_exp_unchecked (fuel : Nat) (s : LevelState) (amount : ℤ)
    (mode : Option Bool) :
    give_exp fuel s amount false mode =
      some ⟨s.level, s.experience + amount, s.exponent, s.base_exp,
        s.max_level⟩ := rfl
/-- Claim C4, counterexample to the literal statement: strict monotonicity
of the threshold in the level fails for some positive exponents.  With
`base_exp = 1` and `exponent = 1/2`, levels 1 and 2 (both at least 1, with
1 < 2) give `floor(1 * 1 ** 0.5) = 1 = floor(1 * 2 ** 0.5)`: the flooring
collapses the sub-unit gap. -/
theorem C4_counterexample :
    (0:ℤ) < 1 ∧ (0:ℝ) < 1/2 ∧ (1:ℤ) ≤ 1 ∧ (1:ℤ) < 2 ∧
    ¬(next_level ⟨1, 0, 1/2, 1, none⟩ < next_level ⟨2, 0, 1/2, 1, none⟩) := by
  refine ⟨by norm_num, by norm_num, le_refl _, by norm_num, ?_⟩
  have e1 : next_level ⟨1, 0, 1/2, 1, none⟩ = 1 :=
    next_level_level_one 0 1 (1/2) none
  have e2 : next_level ⟨2, 0, 1/2, 1, none⟩ = 1 := by
    show ⌊((1:ℤ):ℝ) * ((2:ℤ):ℝ) ^ (1/2 : ℝ)⌋ = 1
    rw [Int.cast_one, one_mul, show ((2:ℤ):ℝ) = (2:ℝ) by norm_num,
      ← Real.sqrt_eq_rpow]
    have hs : Real.sqrt 2 ^ 2 = 2 := Real.sq_sqrt (by norm_num)
    have hn : 0 ≤ Real.sqrt 2 := Real.sqrt_nonneg 2
    have hlo : (1:ℝ) ≤ Real.sqrt 2 := by nlinarith
    have hhi : Real.sqrt 2 < 2 := by nlinarith
    rw [Int.floor_eq_iff]
    constructor
    · exact_mod_cast hlo
    · push_cast
      linarith
  rw [e1, e2]
  omega

/-- Claim C4, amended: for levels `1 ≤ level1 < level2`, a positive integer
`base_exp` and an exponent at least 1 (rather than merely positive), the
threshold at `level1` is strictly below the threshold at `level2`; the other
state fields are irrelevant to the property. -/
theorem C4_threshold_strict_mono (b l1 l2 x1 x2 : ℤ) (e : ℝ)
    (m1 m2 : Option ℤ) (hb : 0 < b) (he : 1 ≤ e) (h1 : 1 ≤ l1)
    (h12 : l1 < l2) :
    next_level ⟨l1, x1, e, b, m1⟩ < next_level ⟨l2, x2, e, b, m2⟩ := by
  show ⌊(b:ℝ) * (l1:ℝ) ^ e⌋ < ⌊(b:ℝ) * (l2:ℝ) ^ e⌋
  have hl1 : (1:ℝ) ≤ (l1:ℝ) := by exact_mod_cast h1
  have hl12 : (l1:ℝ) + 1 ≤ (l2:ℝ) := by
    exact_mod_cast (show l1 + 1 ≤ l2 by omega)
  have hb1 : (1:ℝ) ≤ (b:ℝ) := by exact_mod_cast (show (1:ℤ) ≤ b by omega)
  have hgap0 := rpow_succ_gap (l1:ℝ) e hl1 he
  have hstep : ((l1:ℝ) + 1) ^ e ≤ (l2:ℝ) ^ e :=
    Real.rpow_le_rpow (by linarith) hl12 (by linarith)
  have hgap : (l1:ℝ) ^ e + 1 ≤ (l2:ℝ) ^ e := by linarith
  have h7 : (b:ℝ) * ((l1:ℝ) ^ e + 1) ≤ (b:ℝ) * (l2:ℝ) ^ e :=
    mul_le_mul_of_nonneg_left hgap (by linarith)
  have h8 : (b:ℝ) * ((l1:ℝ) ^ e + 1) = (b:ℝ) * (l1:ℝ) ^ e + (b:ℝ) := by ring
  have hmain : (b:ℝ) * (l1:ℝ) ^ e + 1 ≤ (b:ℝ) * (l2:ℝ) ^ e := by linarith
  have hlt : (⌊(b:ℝ) * (l1:ℝ) ^ e⌋ + 1 : ℤ) ≤ ⌊(b:ℝ) * (l2:ℝ) ^ e⌋ := by
    apply Int.le_floor.mpr
    have hfl : (⌊(b:ℝ) * (l1:ℝ) ^ e⌋ : ℝ) ≤ (b:ℝ) * (l1:ℝ) ^ e :=
      Int.floor_le _
    push_cast
    linarith
  omega

/-- Witness for C4 (amended): base 1, exponent 1, levels 1 and 2. -/
theorem C4_threshold_strict_mono_witness :
    next_level ⟨1, 0, 1, 1, none⟩ < next_level ⟨2, 0, 1, 1, none⟩ :=
  C4_threshold_strict_mono 1 1 2 0 0 1 none none (by norm_num) (le_refl 1)
    (le_refl 1) (by norm_num)

/-- Claim C6: `next_level` computes exactly the spec's
`floor(base_exp * level ** exponent)`, is a pure function of the state (a
read leaves the state unchanged), and a repeated read without intervening
mutation returns the same value. -/
theorem C6_next_level_pure (s : LevelState) :
    next_level s = spec_threshold s ∧
    (nextLevelCall s).2 = s ∧
    (nextLevelCall (nextLevelCall s).2).1 = (nextLevelCall s).1 :=
  ⟨rfl, rfl, rfl⟩

/-- Claim C7: on any terminating `level_up` call, a message is produced
exactly when (the mode is always-report, or it is silent-unless-leveled and
the level grew this call) and the final state is strictly below any set cap;
the message carries `next_level - experience` evaluated at the final state,
and that value is never negative (the loop exits only when the threshold
strictly exceeds the experience). -/
theorem C7_report_semantics (mode : Option Bool) (fuel : Nat)
    (s s' : LevelState) (msg : Option ℤ)
    (h : level_up fuel s mode = some (s', msg)) :
    (msg.isSome = true ↔
      ((mode = some true ∨ (mode = some false ∧ s.level < s'.level)) ∧
        belowCap s' = true)) ∧
    (∀ v : ℤ, msg = some v →
      v = next_level s' - s'.experience ∧ 0 ≤ v) := by
  unfold level_up at h
  rcases Option.map_eq_some'.mp h with ⟨⟨s1, flag1⟩, hloop, hs1⟩
  have hfst : s1 = s' := congrArg Prod.fst hs1
  have hsnd : (if flag1 = some true ∧ belowCap s1 = true
      then some (next_level s1 - s1.experience) else none) = msg :=
    congrArg Prod.snd hs1
  subst hfst
  have hexit : s1.experience < next_level s1 :=
    (levelUpLoop_spec _ _ _ _ _ hloop).2.2.2.2.2
  have hflag := levelUpLoop_flag _ _ _ _ _ hloop
  cases mode with
  | none =>
    have hf : flag1 = none := hflag.1 rfl
    subst hf
    rw [if_neg (by simp)] at hsnd
    subst hsnd
    simp
  | some b =>
    cases b with
    | true =>
      have hf : flag1 = some true := hflag.2.1 rfl
      subst hf
      by_cases hbc : belowCap s1 = true
      · rw [if_pos ⟨rfl, hbc⟩] at hsnd
        subst hsnd
        refine ⟨by simp [hbc], ?_⟩
        intro v hv
        have : v = next_level s1 - s1.experience := (Option.some.inj hv).symm
        subst this
        exact ⟨rfl, by omega⟩
      · rw [if_neg (by simp [hbc])] at hsnd
        subst hsnd
        simp [hbc]
    | false =>
      have hiff : flag1 = some true ↔ s.level < s1.level := hflag.2.2 rfl
      by_cases hft : flag1 = some true
      · have hlt : s.level < s1.level := hiff.mp hft
        subst hft
        by_cases hbc : belowCap s1 = true
        · rw [if_pos ⟨rfl, hbc⟩] at hsnd
          subst hsnd
          refine ⟨by simp [hbc, hlt], ?_⟩
          intro v hv
          have : v = next_level s1 - s1.experience := (Option.some.inj hv).symm
          subst this
          exact ⟨rfl, by omega⟩
        · rw [if_neg (by simp [hbc])] at hsnd
          subst hsnd
          simp [hbc]
      · have hnlt : ¬ s.level < s1.level := fun hl => hft (hiff.mpr hl)
        rw [if_neg (by simp [hft])] at hsnd
        subst hsnd
        simp [hnlt]

/-- Witness for C7: always-report mode on an uncapped level-1 state below
its threshold; the reported value is 85 and is non-negative. -/
theorem C7_report_semantics_witness :
    (85:ℤ) = next_level ⟨1, 0, 1, 85, none⟩ -
        (LevelState.mk 1 0 1 85 none).experience ∧ (0:ℤ) ≤ 85 :=
  (C7_report_semantics (some true) 1 ⟨1, 0, 1, 85, none⟩ ⟨1, 0, 1, 85, none⟩
    (some 85) (by
      rw [show (1:Nat) = 0 + 1 from rfl,
        level_up_exit 0 ⟨1, 0, 1, 85, none⟩ (some true)
          (by rw [next_level_exponent_one]; norm_num)]
      rw [if_pos ⟨rfl, rfl⟩, next_level_exponent_one]
      norm_num)).2 85 rfl
/-- Claim C9: `_get_by_ID` raises `NotImplementedError` for any file format
outside the supported set (json, toml); with a supported format it raises
`KeyError` when the category, or the stringified ID within the category, is
absent from the parsed file, and otherwise returns the record at
`data[obj_type][str(ID)]`.  There is no local handler, so each of these
outcomes is exactly the call's result, propagated to the caller. -/
theorem C9_getByID_semantics {Rec : Type}
    (data : List (String × List (String × Rec)))
    (ID : ℤ) (obj_type : String) (file_format : String) :
    (¬(file_format = "json" ∨ file_format = "toml") →
      getByID data ID obj_type file_format =
        .error (.unsupportedFormat file_format)) ∧
    ((file_format = "json" ∨ file_format = "toml") →
      (List.lookup obj_type data = none →
        getByID data ID obj_type file_format = .error .keyNotFound) ∧
      (∀ table, List.lookup obj_type data = some table →
        (List.lookup (toString ID) table = none →
          getByID data ID obj_type file_format = .error .keyNotFound) ∧
        (∀ r, List.lookup (toString ID) table = some r →
          getByID data ID obj_type file_format = .ok r))) := by
  constructor
  · intro hfmt
    unfold getByID
    rw [if_neg hfmt]
  · intro hfmt
    refine ⟨?_, ?_⟩
    · intro hnone
      unfold getByID
      rw [if_pos hfmt, hnone]
    · intro table htab
      refine ⟨?_, ?_⟩
      · intro hnone
        unfold getByID
        rw [if_pos hfmt, htab]
        show (match List.lookup (toString ID) table with
          | none => Except.error LoadError.keyNotFound
          | some r => Except.ok r) = Except.error LoadError.keyNotFound
        rw [hnone]
      · intro r hr
        unfold getByID
        rw [if_pos hfmt, htab]
        show (match List.lookup (toString ID) table with
          | none => Except.error LoadError.keyNotFound
          | some r => Except.ok r) = Except.ok r
        rw [hr]

/-- Witness for C9: a two-entry data table hit, and an unsupported format
miss. -/
theorem C9_getByID_semantics_witness :
    getByID [(("items"), [(("1"), (42:ℕ))])] 1 ("items") ("json") = .ok 42 ∧
    getByID ([] : List (String × List (String × ℕ))) 1 ("items") ("csv") =
      .error (.unsupportedFormat ("csv")) :=
  ⟨(((C9_getByID_semantics [(("items"), [(("1"), (42:ℕ))])] 1 ("items")
      ("json")).2 (Or.inl rfl)).2 [(("1"), (42:ℕ))] rfl).2 42 rfl,
    (C9_getByID_semantics ([] : List (String × List (String × ℕ))) 1
      ("items") ("csv")).1 (by decide)⟩

/-- Claim C10: terminating `level_up` and `give_exp` calls leave the
growth-curve configuration (`exponent`, `base_exp`, `max_level`) exactly as
it was; only `level` and `experience` are ever written after
construction. -/
theorem C10_config_frame :
    (∀ (fuel : Nat) (s : LevelState) (mode : Option Bool) (s' : LevelState)
        (msg : Option ℤ), level_up fuel s mode = some (s', msg) →
        s'.exponent = s.exponent ∧ s'.base_exp = s.base_exp ∧
        s'.max_level = s.max_level) ∧
    (∀ (fuel : Nat) (s : LevelState) (amount : ℤ) (chk : Bool)
        (mode : Option Bool) (s' : LevelState),
        give_exp fuel s amount chk mode = some s' →
        s'.exponent = s.exponent ∧ s'.base_exp = s.base_exp ∧
        s'.max_level = s.max_level) := by
  constructor
  · intro fuel s mode s' msg h
    unfold level_up at h
    rcases Option.map_eq_some'.mp h with ⟨⟨s1, flag1⟩, hloop, hs1⟩
    have hfst : s1 = s' := congrArg Prod.fst hs1
    subst hfst
    have hspec := levelUpLoop_spec _ _ _ _ _ hloop
    exact ⟨hspec.2.2.1, hspec.2.2.2.1, hspec.2.2.2.2.1⟩
  · intro fuel s amount chk mode s' h
    have hspec := give_exp_spec fuel s amount chk mode s' h
    exact ⟨hspec.2.1, hspec.2.2.1, hspec.2.2.2⟩

/-- Witness for C10: a concrete `give_exp` call; the three configuration
fields of the result equal those of the argument. -/
theorem C10_config_frame_witness :
    (LevelState.mk 1 (0 + 5) 1.6 85 none).exponent =
        (LevelState.mk 1 0 1.6 85 none).exponent ∧
      (LevelState.mk 1 (0 + 5) 1.6 85 none).base_exp =
        (LevelState.mk 1 0 1.6 85 none).base_exp ∧
      (LevelState.mk 1 (0 + 5) 1.6 85 none).max_level =
        (LevelState.mk 1 0 1.6 85 none).max_level :=
  C10_config_frame.2 1 ⟨1, 0, 1.6, 85, none⟩ 5 false none
    ⟨1, 0 + 5, 1.6, 85, none⟩ rfl
end RPGenie
